import Mathlib

/-!
Shallow embedding of the Polymer state-sync relayer (`src/scripts/relayer.js`).

The relay pipeline is modelled as pure functions over explicit state:
* the base64 / hex proof codec (`Buffer.from(proof, "base64").toString("hex")`,
  relayer.js:268),
* the proof poll loop of `handleValueSetEvent` (relayer.js:234-259),
* the body of `handleValueSetEvent` (relayer.js:175-309), with every external
  call (proof service, destination chain) recorded in an effect trace and the
  responses of the outside world supplied by an oracle,
* the per-event callback registered in `ChainListener.start`
  (relayer.js:63-172), including the duplicate-suppression registry
  `processedEvents`,
* a small interleaving model for two concurrent deliveries of the same event.
-/

namespace Relayer

/- ------------------------------------------------------------------ -/
/- Base64 and hex codec (relayer.js:268)                               -/
/- ------------------------------------------------------------------ -/

/-- The standard base64 alphabet, as used by Node's `Buffer.from(·, "base64")`. -/
def b64Chars : List Char :=
  "ABCDEFGHIJKLMNOPQRSTUVWXYZabcdefghijklmnopqrstuvwxyz0123456789+/".toList

/-- Character of a sextet value. -/
def b64Char (i : Nat) : Char := b64Chars.getD i '?'

/-- Sextet value of a base64 character (`none` for characters outside the
alphabet, in particular for the padding character). -/
def b64Val (c : Char) : Option Nat :=
  let i := b64Chars.findIdx (fun x => x == c)
  if i < 64 then some i else none

/-- Canonical base64 encoding of a byte sequence (bytes as `Nat < 256`),
with padding, as produced by the proof service at the wire boundary. -/
def base64EncodeBytes : List Nat → List Char
  | [] => []
  | [a] => [b64Char (a / 4), b64Char (a % 4 * 16), '=', '=']
  | [a, b] => [b64Char (a / 4), b64Char (a % 4 * 16 + b / 16), b64Char (b % 16 * 4), '=']
  | a :: b :: c :: rest =>
      b64Char (a / 4) :: b64Char (a % 4 * 16 + b / 16) ::
      b64Char (b % 16 * 4 + c / 64) :: b64Char (c % 64) :: base64EncodeBytes rest

/-- Base64 decoding to raw bytes (canonical padded form), the relayer-side
decode of the wire proof. -/
def base64DecodeChars : List Char → Option (List Nat)
  | [] => some []
  | c1 :: c2 :: c3 :: c4 :: rest =>
    match b64Val c1, b64Val c2 with
    | some v1, some v2 =>
      if c3 = '=' then
        if c4 = '=' ∧ rest = [] ∧ v2 % 16 = 0 then
          some [v1 * 4 + v2 / 16]
        else none
      else
        match b64Val c3 with
        | some v3 =>
          if c4 = '=' then
            if rest = [] ∧ v3 % 4 = 0 then
              some [v1 * 4 + v2 / 16, v2 % 16 * 16 + v3 / 4]
            else none
          else
            match b64Val c4 with
            | some v4 =>
              match base64DecodeChars rest with
              | some bs => some ((v1 * 4 + v2 / 16) :: (v2 % 16 * 16 + v3 / 4) :: (v3 % 4 * 64 + v4) :: bs)
              | none => none
            | none => none
        | none => none
    | _, _ => none
  | _ => none

/-- Lowercase hexadecimal digits, as produced by `Buffer.toString("hex")`. -/
def hexChars : List Char := "0123456789abcdef".toList

/-- Hex digit of a nibble value. -/
def hexDigit (i : Nat) : Char := hexChars.getD i '?'

/-- Nibble value of a hex digit. -/
def hexVal (c : Char) : Option Nat :=
  let i := hexChars.findIdx (fun x => x == c)
  if i < 16 then some i else none

/-- Hex rendering of a byte sequence (two digits per byte, no separator),
as in `Buffer.toString("hex")`. -/
def hexOfBytes : List Nat → List Char
  | [] => []
  | b :: bs => hexDigit (b / 16) :: hexDigit (b % 16) :: hexOfBytes bs

/-- Byte sequence denoted by a hex string. -/
def bytesOfHex : List Char → Option (List Nat)
  | [] => some []
  | c1 :: c2 :: rest =>
    match hexVal c1, hexVal c2 with
    | some h, some l =>
      match bytesOfHex rest with
      | some bs => some ((h * 16 + l) :: bs)
      | none => none
    | _, _ => none
  | _ => none

/-- The calldata form of a wire proof:
`proofInBytes = "0x" + Buffer.from(proof, "base64").toString("hex")`
(relayer.js:268). Wire proofs that are not canonical base64 are outside the
modelled scope and map to the empty byte string. -/
def calldataOfProof (p : String) : String :=
  "0x" ++ String.mk (hexOfBytes ((base64DecodeChars p.toList).getD []))

/- ------------------------------------------------------------------ -/
/- Proof poll loop (relayer.js:234-259)                                -/
/- ------------------------------------------------------------------ -/

/-- The `result` object of one `receipt_queryProof` response body:
a status string and, once complete, a base64 proof string. -/
structure QueryResult where
  status : String
  proof : Option String
deriving DecidableEq

/-- One `receipt_queryProof` response body: the `result` field may be absent
(e.g. a JSON-RPC error body), in which case reading `result.status` at
relayer.js:257 throws. -/
structure QueryResp where
  result : Option QueryResult
deriving DecidableEq

/-- The two ways the poll loop can throw: the attempt ceiling
(`Failed to get proof from Polymer API`, relayer.js:239) or the TypeError
raised at relayer.js:257 when the response body has no `result` object. -/
inductive PollErr where
  | timeout
  | typeError
deriving DecidableEq

/-- Body of the `while` loop at relayer.js:237-259. `polls i` is the response
to the i-th poll (0-indexed). `attempts` mirrors the source counter;
`remaining` is `10 - attempts`, so `remaining = 0` is exactly the
`attempts >= 10` throw. Returns the loop's outcome — on success the proof
string together with the number of polls issued — and the list of delays
awaited, one entry per poll issued (the `setTimeout` at relayer.js:241). -/
def pollLoopAux (polls : Nat → QueryResp) (delay : Nat) :
    Nat → Nat → Except PollErr (String × Nat) × List Nat
  | _, 0 => (.error .timeout, [])
  | attempts, remaining + 1 =>
    match (polls attempts).result with
    | none => (.error .typeError, [delay])
    | some r =>
      match r.proof with
      | none =>
        match pollLoopAux polls delay (attempts + 1) remaining with
        | (out, ds) => (out, delay :: ds)
      | some p =>
        if p = "" then
          match pollLoopAux polls delay (attempts + 1) remaining with
          | (out, ds) => (out, delay :: ds)
        else (.ok (p, attempts + 1), [delay])

/-- The poll loop as entered by `handleValueSetEvent`:
`let attempts = 0; const delay = attempts === 0 ? 10000 : 5000;` — the delay
is computed once, before the loop (relayer.js:235-236). -/
def proofPollLoop (polls : Nat → QueryResp) : Except PollErr (String × Nat) × List Nat :=
  let attempts := 0
  let delay := if attempts = 0 then 10000 else 5000
  pollLoopAux polls delay attempts (10 - attempts)

/-- A poll response the loop treats as not ready: a `result` object is present
but carries no proof (or an empty proof string, which is falsy in the source
condition `!proofResponse?.data?.result?.proof`). -/
def notReady (r : QueryResp) : Prop :=
  ∃ q, r.result = some q ∧ (q.proof = none ∨ q.proof = some "")

/-- A poll response carrying a ready proof `p`. -/
def readyWith (r : QueryResp) (p : String) : Prop :=
  ∃ q, r.result = some q ∧ q.proof = some p ∧ p ≠ ""

/- ------------------------------------------------------------------ -/
/- Data model and handler (relayer.js:175-309)                         -/
/- ------------------------------------------------------------------ -/

/-- One entry of `CHAINS` (src/config/chains, filtered by activation). -/
structure ChainConfig where
  name : String
  chainId : Nat
  rpcUrl : String
  contractAddress : String
deriving DecidableEq

/-- Decoded `ValueSet` event arguments (value as raw bytes). -/
structure EventArgs where
  sender : String
  key : String
  value : List Nat
  destinationChainId : Nat
  nonce : Nat
  hashedKey : String
deriving DecidableEq

/-- The data handed to `handleValueSetEvent` (relayer.js:146-160): decoded
arguments plus the log's positional metadata. -/
structure EventData where
  args : EventArgs
  blockHash : String
  blockNumber : Nat
  transactionHash : String
  logIndex : Nat
  positionInBlock : Nat
deriving DecidableEq

/-- The event identity string
`` `${event.log.blockHash}-${event.log.transactionHash}-${event.log.index}` ``
(relayer.js:76), the key of `processedEvents`. -/
def eventId (e : EventData) : String :=
  e.blockHash ++ "-" ++ e.transactionHash ++ "-" ++ toString e.logIndex

/-- Destination chain resolution (relayer.js:179-181):
`Object.values(CHAINS).find((chain) => chain.chainId.toString() === destinationChainId)`. -/
def findDestinationChain (chains : List ChainConfig) (dcid : Nat) : Option ChainConfig :=
  chains.find? (fun c => toString c.chainId == toString dcid)

/-- A network call made by `handleValueSetEvent` to the proof service or to
the destination chain. -/
inductive NetCall where
  | proofRequest (srcChainId dstChainId blockNumber posInBlock : Nat)
  | proofPoll (jobId : Nat)
  | estimateGasCall (dstChainId : Nat) (proofArg : String)
  | sendTx (dstChainId : Nat) (proofArg : String) (gasLimit : Nat)
  | txWait
deriving DecidableEq

/-- The errors `handleValueSetEvent` can throw (each caught at the per-event
boundary, relayer.js:162-167). -/
inductive RelayError where
  | proofRequestNetwork
  | proofRequestStatus (code : Nat)
  | proofTimeout
  | pollTypeError
  | estimateGasError
  | dispatchError
  | confirmationError
deriving DecidableEq

/-- How one invocation of `handleValueSetEvent` ends: it resolves after a full
relay, it resolves after the early `return` for an unresolvable destination
chain (relayer.js:183-188), or it throws. -/
inductive HandlerOutcome where
  | ok
  | configDrop
  | threw (e : RelayError)
deriving DecidableEq

/-- Responses of the outside world for one relay attempt: the proof request
call (network-level success and HTTP status), the job id, the poll responses,
and the destination-chain results (`none` models a throw). -/
structure Oracle where
  requestOk : Bool
  requestStatus : Nat
  jobId : Nat
  polls : Nat → QueryResp
  estimateGasResult : Option Nat
  sendResult : Option String
  waitOk : Bool

/-- Shallow embedding of `handleValueSetEvent` (relayer.js:175-309): resolve
the destination chain, request a proof, run the poll loop, decode the proof,
estimate gas, dispatch, and await confirmation, recording every external call
in order. -/
def handleValueSetEvent (cfg : ChainConfig) (chains : List ChainConfig)
    (o : Oracle) (data : EventData) : HandlerOutcome × List NetCall :=
  match findDestinationChain chains data.args.destinationChainId with
  | none => (.configDrop, [])
  | some dst =>
    let reqCall := NetCall.proofRequest cfg.chainId data.args.destinationChainId
      data.blockNumber data.positionInBlock
    if o.requestOk = false then (.threw .proofRequestNetwork, [reqCall])
    else if o.requestStatus ≠ 200 then
      (.threw (.proofRequestStatus o.requestStatus), [reqCall])
    else
      match proofPollLoop o.polls with
      | (.error .timeout, ds) =>
        (.threw .proofTimeout, reqCall :: ds.map (fun _ => .proofPoll o.jobId))
      | (.error .typeError, ds) =>
        (.threw .pollTypeError, reqCall :: ds.map (fun _ => .proofPoll o.jobId))
      | (.ok (proof, _), ds) =>
        let pollCalls : List NetCall := ds.map (fun _ => .proofPoll o.jobId)
        let proofArg := calldataOfProof proof
        match o.estimateGasResult with
        | none =>
          (.threw .estimateGasError,
           reqCall :: pollCalls ++ [.estimateGasCall dst.chainId proofArg])
        | some gas =>
          match o.sendResult with
          | none =>
            (.threw .dispatchError,
             reqCall :: pollCalls ++
               [.estimateGasCall dst.chainId proofArg, .sendTx dst.chainId proofArg gas])
          | some _txHash =>
            if o.waitOk then
              (.ok,
               reqCall :: pollCalls ++
                 [.estimateGasCall dst.chainId proofArg, .sendTx dst.chainId proofArg gas,
                  .txWait])
            else
              (.threw .confirmationError,
               reqCall :: pollCalls ++
                 [.estimateGasCall dst.chainId proofArg, .sendTx dst.chainId proofArg gas,
                  .txWait])

/- ------------------------------------------------------------------ -/
/- Per-event callback (relayer.js:63-172)                              -/
/- ------------------------------------------------------------------ -/

/-- A source-chain RPC call made by the callback before the handler runs. -/
inductive SourceCall where
  | getBlock (blockNumber : Nat)
  | getReceipt
deriving DecidableEq

/-- Any externally visible call of one delivery's processing. -/
inductive Effect where
  | source (c : SourceCall)
  | net (c : NetCall)
deriving DecidableEq

/-- How the callback disposed of one delivery: skipped by the duplicate check
(relayer.js:79-81), or handled with the given handler outcome (a thrown
handler error is caught at relayer.js:162-167). -/
inductive DeliveryOutcome where
  | skipped
  | handled (r : HandlerOutcome)
deriving DecidableEq

/-- Result of one callback invocation: the registry afterwards, the outcome,
and the effect trace. -/
structure DeliveryResult where
  registry : List String
  outcome : DeliveryOutcome
  effects : List Effect
deriving DecidableEq

/-- Shallow embedding of the `ValueSet` callback (relayer.js:74-167) for one
delivery: duplicate check against `processedEvents`, block and receipt
queries, the handler, and — only when the handler resolves without throwing —
the `processedEvents.add(eventId)` at relayer.js:161. -/
def processDelivery (cfg : ChainConfig) (chains : List ChainConfig)
    (o : Oracle) (registry : List String) (d : EventData) : DeliveryResult :=
  let eid := eventId d
  if eid ∈ registry then ⟨registry, .skipped, []⟩
  else
    let res := handleValueSetEvent cfg chains o d
    let effs := Effect.source (.getBlock d.blockNumber) :: Effect.source .getReceipt ::
      res.2.map Effect.net
    match res.1 with
    | .threw e => ⟨registry, .handled (.threw e), effs⟩
    | .ok => ⟨eid :: registry, .handled .ok, effs⟩
    | .configDrop => ⟨eid :: registry, .handled .configDrop, effs⟩

/-- Sequential processing of a list of deliveries (each with its own oracle),
threading the registry. -/
def processDeliveries (cfg : ChainConfig) (chains : List ChainConfig)
    (registry : List String) :
    List (Oracle × EventData) → List String × List (DeliveryOutcome × List Effect)
  | [] => (registry, [])
  | (o, d) :: rest =>
    let r := processDelivery cfg chains o registry d
    let tail := processDeliveries cfg chains r.registry rest
    (tail.1, (r.outcome, r.effects) :: tail.2)

/- ------------------------------------------------------------------ -/
/- Interleaving model for concurrent deliveries (§4.1 race)            -/
/- ------------------------------------------------------------------ -/

/-- One atomic step of a callback invocation, separated by `await` points:
the duplicate-registry read (relayer.js:79), one external call, or the
registry insertion after full success (relayer.js:161). -/
inductive PStep where
  | checkRegistry
  | awaitEffect (e : Effect)
  | markProcessed
deriving DecidableEq

/-- The state of one in-flight callback invocation. -/
structure ProcState where
  eid : String
  program : List PStep
  trace : List Effect
  skipped : Bool
deriving DecidableEq

/-- Run one atomic step of an invocation against the shared registry. -/
def stepProc (registry : List String) (p : ProcState) : List String × ProcState :=
  match p.program with
  | [] => (registry, p)
  | .checkRegistry :: rest =>
    if p.eid ∈ registry then (registry, { p with program := [], skipped := true })
    else (registry, { p with program := rest })
  | .awaitEffect e :: rest =>
    (registry, { p with trace := p.trace ++ [e], program := rest })
  | .markProcessed :: rest =>
    (p.eid :: registry, { p with program := rest })

/-- Interleave two invocations under a schedule: `true` steps the first,
`false` steps the second. -/
def runSched : List Bool → List String → ProcState → ProcState →
    List String × ProcState × ProcState
  | [], registry, p1, p2 => (registry, p1, p2)
  | true :: s, registry, p1, p2 =>
    let r := stepProc registry p1
    runSched s r.1 r.2 p2
  | false :: s, registry, p1, p2 =>
    let r := stepProc registry p2
    runSched s r.1 p1 r.2

/-- The step sequence of one callback invocation whose relay attempt performs
the given network calls and fully succeeds: duplicate check, block and receipt
queries, the network calls, then the registry insertion. -/
def callbackSteps (d : EventData) (calls : List NetCall) : List PStep :=
  PStep.checkRegistry ::
    (Effect.source (.getBlock d.blockNumber) :: Effect.source .getReceipt ::
      calls.map Effect.net).map PStep.awaitEffect ++ [PStep.markProcessed]

/-- Initial state of one invocation for event `d`. -/
def initProc (d : EventData) (calls : List NetCall) : ProcState :=
  ⟨eventId d, callbackSteps d calls, [], false⟩

/-- Does an effect submit a transaction to the destination chain? -/
def isSendTx : Effect → Bool
  | .net (.sendTx _ _ _) => true
  | _ => false

/-- Did this invocation reach the destination submission step? -/
def reachesSubmission (p : ProcState) : Bool := p.trace.any isSendTx

/-- Number of the two invocations that reached the destination submission. -/
def submissionsOf (p1 p2 : ProcState) : Nat :=
  (if reachesSubmission p1 then 1 else 0) + (if reachesSubmission p2 then 1 else 0)

/- ------------------------------------------------------------------ -/
/- Sample inputs (used by witnesses and counterexamples)               -/
/- ------------------------------------------------------------------ -/

/-- Sample source chain. -/
def srcChain : ChainConfig := ⟨"optimism-sepolia", 11155420, "rpcA", "0xA"⟩

/-- Sample destination chain. -/
def dstChain : ChainConfig := ⟨"base-sepolia", 84532, "rpcB", "0xB"⟩

/-- Sample configured chain set. -/
def sampleChains : List ChainConfig := [srcChain, dstChain]

/-- Sample event targeting the configured destination chain 84532. -/
def sampleEvent : EventData :=
  ⟨⟨"0xS", "k", [77, 97, 110], 84532, 1, "0xH"⟩, "bh", 5, "th", 0, 2⟩

/-- Sample event whose destination chain id 999 matches no configured chain. -/
def orphanEvent : EventData :=
  ⟨⟨"0xS", "k", [77, 97, 110], 999, 1, "0xH"⟩, "bh", 5, "th", 0, 2⟩

/-- Poll response with a pending status and no proof. -/
def pendingResp : QueryResp := ⟨some ⟨"pending", none⟩⟩

/-- Poll response carrying a ready proof (base64 of the bytes of `Man`). -/
def readyResp : QueryResp := ⟨some ⟨"complete", some "TWFu"⟩⟩

/-- Poll response whose body has no `result` object. -/
def noResultResp : QueryResp := ⟨none⟩

/-- Oracle for a fully successful relay attempt: proof ready on the first
poll, gas estimation and dispatch succeed, confirmation arrives. -/
def happyOracle : Oracle :=
  ⟨true, 200, 7, fun _ => readyResp, some 21000, some "0xTX", true⟩

/-- Oracle whose proof service never reports a ready proof. -/
def pendingOracle : Oracle :=
  ⟨true, 200, 7, fun _ => pendingResp, some 21000, some "0xTX", true⟩

/-- Oracle whose gas estimation throws (simulated revert). -/
def estimateFailOracle : Oracle :=
  ⟨true, 200, 7, fun _ => readyResp, none, some "0xTX", true⟩

/-- Oracle whose initial proof request fails at the network level. -/
def requestFailOracle : Oracle :=
  ⟨false, 200, 7, fun _ => readyResp, some 21000, some "0xTX", true⟩

/-- The network calls of a successful relay attempt, as used by the
interleaving model. -/
def happyCalls : List NetCall :=
  [.proofRequest 11155420 84532 5 2, .proofPoll 7,
   .estimateGasCall 84532 "0x4d616e", .sendTx 84532 "0x4d616e" 21000, .txWait]

/-- A racing schedule: both invocations pass the duplicate check before
either completes, then each runs to completion. -/
def raceSchedule : List Bool :=
  [true, false] ++ List.replicate 8 true ++ List.replicate 8 false

/-- A sequential schedule: the first invocation runs to completion before the
second starts. -/
def seqSchedule : List Bool :=
  List.replicate 9 true ++ List.replicate 9 false

/- ------------------------------------------------------------------ -/
/- Codec lemmas                                                        -/
/- ------------------------------------------------------------------ -/

theorem b64Val_b64Char : ∀ i, i < 64 → b64Val (b64Char i) = some i := by decide

theorem b64Char_ne_pad : ∀ i, i < 64 → b64Char i ≠ '=' := by decide

theorem hexVal_hexDigit : ∀ i, i < 16 → hexVal (hexDigit i) = some i := by decide

/-- Hex rendering loses no information: decoding it returns the bytes. -/
theorem bytesOfHex_hexOfBytes : ∀ bs : List Nat, (∀ x ∈ bs, x < 256) →
    bytesOfHex (hexOfBytes bs) = some bs
  | [], _ => rfl
  | b :: bs, h => by
    have hb : b < 256 := h b (List.mem_cons_self _ _)
    have ih := bytesOfHex_hexOfBytes bs (fun x hx => h x (List.mem_cons_of_mem _ hx))
    have h1 := hexVal_hexDigit (b / 16) (by omega)
    have h2 := hexVal_hexDigit (b % 16) (by omega)
    simp [hexOfBytes, bytesOfHex, h1, h2, ih]
    omega

/-- Base64 decoding of a canonical encoding round-trips to the bytes. -/
theorem base64_decode_encode : ∀ bs : List Nat, (∀ x ∈ bs, x < 256) →
    base64DecodeChars (base64EncodeBytes bs) = some bs
  | [], _ => rfl
  | [a], h => by
    have ha : a < 256 := h a (List.mem_cons_self _ _)
    have h1 := b64Val_b64Char (a / 4) (by omega)
    have h2 := b64Val_b64Char (a % 4 * 16) (by omega)
    have h3 : a % 4 * 16 % 16 = 0 := by omega
    simp [base64EncodeBytes, base64DecodeChars, h1, h2, h3]
    omega
  | [a, b], h => by
    have ha : a < 256 := h a (by simp)
    have hb : b < 256 := h b (by simp)
    have h1 := b64Val_b64Char (a / 4) (by omega)
    have h2 := b64Val_b64Char (a % 4 * 16 + b / 16) (by omega)
    have h3 := b64Val_b64Char (b % 16 * 4) (by omega)
    have hne3 := b64Char_ne_pad (b % 16 * 4) (by omega)
    have h4 : b % 16 * 4 % 4 = 0 := by omega
    simp [base64EncodeBytes, base64DecodeChars, h1, h2, h3, hne3, h4]
    omega
  | a :: b :: c :: rest, h => by
    have ha : a < 256 := h a (by simp)
    have hb : b < 256 := h b (by simp)
    have hc : c < 256 := h c (by simp)
    have ih := base64_decode_encode rest (fun x hx => h x (by simp [hx]))
    have h1 := b64Val_b64Char (a / 4) (by omega)
    have h2 := b64Val_b64Char (a % 4 * 16 + b / 16) (by omega)
    have h3 := b64Val_b64Char (b % 16 * 4 + c / 64) (by omega)
    have h4 := b64Val_b64Char (c % 64) (by omega)
    have hne3 := b64Char_ne_pad (b % 16 * 4 + c / 64) (by omega)
    have hne4 := b64Char_ne_pad (c % 64) (by omega)
    simp [base64EncodeBytes, base64DecodeChars, h1, h2, h3, h4, hne3, hne4, ih]
    omega

/- ------------------------------------------------------------------ -/
/- Poll loop lemmas                                                    -/
/- ------------------------------------------------------------------ -/

/-- If every response still due is not ready, the loop polls `n` more times
and throws the timeout error. -/
theorem pollLoopAux_timeout (polls : Nat → QueryResp) (delay : Nat) :
    ∀ n attempts, (∀ i, attempts ≤ i → i < attempts + n → notReady (polls i)) →
    pollLoopAux polls delay attempts n = (.error .timeout, List.replicate n delay)
  | 0, _, _ => rfl
  | n + 1, attempts, h => by
    obtain ⟨q, hq, hp⟩ := h attempts le_rfl (by omega)
    have ih := pollLoopAux_timeout polls delay n (attempts + 1)
      (fun i h1 h2 => h i (by omega) (by omega))
    simp only [pollLoopAux]
    rcases hp with hp | hp <;> simp [hq, hp, ih, List.replicate_succ]

/-- If the response to the k-th poll still due is ready, the loop stops right
after that poll with the proof. -/
theorem pollLoopAux_success (polls : Nat → QueryResp) (delay : Nat) :
    ∀ k attempts n p, k < n →
      (∀ i, attempts ≤ i → i < attempts + k → notReady (polls i)) →
      readyWith (polls (attempts + k)) p →
      pollLoopAux polls delay attempts n = (.ok (p, attempts + k + 1), List.replicate (k + 1) delay)
  | 0, attempts, n, p, hk, _, hr => by
    obtain ⟨m, rfl⟩ : ∃ m, n = m + 1 := ⟨n - 1, by omega⟩
    obtain ⟨q, hq, hp, hne⟩ := hr
    simp only [Nat.add_zero] at hq
    simp only [pollLoopAux]
    simp [hq, hp, hne]
  | k + 1, attempts, n, p, hk, hnr, hr => by
    obtain ⟨m, rfl⟩ : ∃ m, n = m + 1 := ⟨n - 1, by omega⟩
    obtain ⟨q, hq, hp⟩ := hnr attempts le_rfl (by omega)
    have hr' : readyWith (polls (attempts + 1 + k)) p := by
      rw [show attempts + 1 + k = attempts + (k + 1) by omega]; exact hr
    have ih := pollLoopAux_success polls delay k (attempts + 1) m p (by omega)
      (fun i h1 h2 => hnr i (by omega) (by omega)) hr'
    simp only [pollLoopAux]
    rcases hp with hp | hp <;>
      simp [hq, hp, ih, List.replicate_succ, show attempts + 1 + k = attempts + (k + 1) by omega]

/-- If the response to the k-th poll still due has no `result` object, the
loop throws the TypeError right after that poll. -/
theorem pollLoopAux_typeError (polls : Nat → QueryResp) (delay : Nat) :
    ∀ k attempts n, k < n →
      (∀ i, attempts ≤ i → i < attempts + k → notReady (polls i)) →
      (polls (attempts + k)).result = none →
      pollLoopAux polls delay attempts n = (.error .typeError, List.replicate (k + 1) delay)
  | 0, attempts, n, hk, _, hm => by
    obtain ⟨m, rfl⟩ : ∃ m, n = m + 1 := ⟨n - 1, by omega⟩
    simp only [Nat.add_zero] at hm
    simp only [pollLoopAux]
    simp [hm]
  | k + 1, attempts, n, hk, hnr, hm => by
    obtain ⟨m, rfl⟩ : ∃ m, n = m + 1 := ⟨n - 1, by omega⟩
    obtain ⟨q, hq, hp⟩ := hnr attempts le_rfl (by omega)
    have hm' : (polls (attempts + 1 + k)).result = none := by
      rw [show attempts + 1 + k = attempts + (k + 1) by omega]; exact hm
    have ih := pollLoopAux_typeError polls delay k (attempts + 1) m (by omega)
      (fun i h1 h2 => hnr i (by omega) (by omega)) hm'
    simp only [pollLoopAux]
    rcases hp with hp | hp <;> simp [hq, hp, ih, List.replicate_succ]

/-- Every delay the loop awaits is the one fixed `delay` value: the awaited
delays form a replicate of it. -/
theorem pollLoopAux_delays_replicate (polls : Nat → QueryResp) (delay : Nat) :
    ∀ n attempts, ∃ m, (pollLoopAux polls delay attempts n).2 = List.replicate m delay
  | 0, _ => ⟨0, rfl⟩
  | n + 1, attempts => by
    obtain ⟨m, ih⟩ := pollLoopAux_delays_replicate polls delay n (attempts + 1)
    simp only [pollLoopAux]
    cases hres : (polls attempts).result with
    | none => exact ⟨1, by simp⟩
    | some q =>
      cases hp : q.proof with
      | none => exact ⟨m + 1, by simp [hp, ih, List.replicate_succ]⟩
      | some p =>
        by_cases hq : p = ""
        · exact ⟨m + 1, by simp [hp, hq, ih, List.replicate_succ]⟩
        · exact ⟨1, by simp [hp, hq]⟩

/- ------------------------------------------------------------------ -/
/- Delivery lemmas                                                     -/
/- ------------------------------------------------------------------ -/



theorem processDelivery_seen (cfg : ChainConfig) (chains : List ChainConfig) (o : Oracle)
    (reg : List String) (d : EventData) (h : eventId d ∈ reg) :
    processDelivery cfg chains o reg d = ⟨reg, .skipped, []⟩ := by
  simp [processDelivery, h]

theorem processDelivery_threw (cfg : ChainConfig) (chains : List ChainConfig) (o : Oracle)
    (reg : List String) (d : EventData) (e : RelayError) (h : eventId d ∉ reg)
    (he : (handleValueSetEvent cfg chains o d).1 = .threw e) :
    processDelivery cfg chains o reg d =
      ⟨reg, .handled (.threw e),
       Effect.source (.getBlock d.blockNumber) :: Effect.source .getReceipt ::
         (handleValueSetEvent cfg chains o d).2.map Effect.net⟩ := by
  simp [processDelivery, h, he]

theorem processDelivery_ok (cfg : ChainConfig) (chains : List ChainConfig) (o : Oracle)
    (reg : List String) (d : EventData) (h : eventId d ∉ reg)
    (he : (handleValueSetEvent cfg chains o d).1 = .ok) :
    processDelivery cfg chains o reg d =
      ⟨eventId d :: reg, .handled .ok,
       Effect.source (.getBlock d.blockNumber) :: Effect.source .getReceipt ::
         (handleValueSetEvent cfg chains o d).2.map Effect.net⟩ := by
  simp [processDelivery, h, he]

theorem processDelivery_configDrop (cfg : ChainConfig) (chains : List ChainConfig) (o : Oracle)
    (reg : List String) (d : EventData) (h : eventId d ∉ reg)
    (he : (handleValueSetEvent cfg chains o d).1 = .configDrop) :
    processDelivery cfg chains o reg d =
      ⟨eventId d :: reg, .handled .configDrop,
       Effect.source (.getBlock d.blockNumber) :: Effect.source .getReceipt ::
         (handleValueSetEvent cfg chains o d).2.map Effect.net⟩ := by
  simp [processDelivery, h, he]

theorem processDelivery_not_skipped (cfg : ChainConfig) (chains : List ChainConfig) (o : Oracle)
    (reg : List String) (d : EventData) (h : eventId d ∉ reg) :
    (processDelivery cfg chains o reg d).outcome ≠ .skipped := by
  cases he : (handleValueSetEvent cfg chains o d).1 with
  | ok => rw [processDelivery_ok cfg chains o reg d h he]; simp
  | configDrop => rw [processDelivery_configDrop cfg chains o reg d h he]; simp
  | threw e => rw [processDelivery_threw cfg chains o reg d e h he]; simp

theorem processDeliveries_seen (cfg : ChainConfig) (chains : List ChainConfig) (eid : String) :
    ∀ (ds : List (Oracle × EventData)) (reg : List String), eid ∈ reg →
      (∀ x ∈ ds, eventId x.2 = eid) →
      processDeliveries cfg chains reg ds =
        (reg, ds.map (fun _ => (DeliveryOutcome.skipped, ([] : List Effect))))
  | [], _, _, _ => rfl
  | (o, d) :: rest, reg, hmem, hids => by
    have hid : eventId d = eid := hids (o, d) (by simp)
    have hseen : eventId d ∈ reg := by rw [hid]; exact hmem
    have ih := processDeliveries_seen cfg chains eid rest reg hmem
      (fun x hx => hids x (by simp [hx]))
    simp [processDeliveries, processDelivery_seen cfg chains o reg d hseen, ih]

theorem processDeliveries_length (cfg : ChainConfig) (chains : List ChainConfig) :
    ∀ (ds : List (Oracle × EventData)) (reg : List String),
      (processDeliveries cfg chains reg ds).2.length = ds.length
  | [], _ => rfl
  | (o, d) :: rest, reg => by
    simp [processDeliveries, processDeliveries_length cfg chains rest _]

theorem countP_skipped_replicate (n : Nat) :
    List.countP (fun x => decide (x.1 = DeliveryOutcome.handled .ok))
      (List.replicate n ((DeliveryOutcome.skipped, ([] : List Effect)))) = 0 := by
  rw [List.countP_eq_zero]
  intro a ha
  rw [List.eq_of_mem_replicate ha]
  simp

theorem processDeliveries_ok_count (cfg : ChainConfig) (chains : List ChainConfig) (eid : String) :
    ∀ (ds : List (Oracle × EventData)) (reg : List String),
      (∀ x ∈ ds, eventId x.2 = eid) →
      List.countP (fun x => decide (x.1 = DeliveryOutcome.handled .ok))
        (processDeliveries cfg chains reg ds).2 ≤ 1
  | [], reg, _ => by simp [processDeliveries]
  | (o, d) :: rest, reg, hids => by
    have hid : eventId d = eid := hids (o, d) (by simp)
    have hrest : ∀ x ∈ rest, eventId x.2 = eid := fun x hx => hids x (by simp [hx])
    by_cases hmem : eventId d ∈ reg
    · have ih := processDeliveries_ok_count cfg chains eid rest reg hrest
      simp [processDeliveries, processDelivery_seen cfg chains o reg d hmem,
        List.countP_cons, ih]
    · cases he : (handleValueSetEvent cfg chains o d).1 with
      | ok =>
        have hpd := processDelivery_ok cfg chains o reg d hmem he
        have hskip := processDeliveries_seen cfg chains eid rest (eventId d :: reg)
          (by rw [hid]; exact List.mem_cons_self _ _) hrest
        simp [processDeliveries, hpd, hskip, List.countP_cons, countP_skipped_replicate]
      | configDrop =>
        have hpd := processDelivery_configDrop cfg chains o reg d hmem he
        have hskip := processDeliveries_seen cfg chains eid rest (eventId d :: reg)
          (by rw [hid]; exact List.mem_cons_self _ _) hrest
        simp [processDeliveries, hpd, hskip, List.countP_cons, countP_skipped_replicate]
      | threw e =>
        have hpd := processDelivery_threw cfg chains o reg d e hmem he
        have ih := processDeliveries_ok_count cfg chains eid rest reg hrest
        simp [processDeliveries, hpd, List.countP_cons, ih]

/- ------------------------------------------------------------------ -/
/- Claims                                                              -/
/- ------------------------------------------------------------------ -/

/-- C1: the claim says the delay awaited before the first poll is 10000 ms and
before every subsequent poll 5000 ms, recomputed from the attempt counter on
every iteration. The code computes `delay` once before the loop with
`attempts = 0` (relayer.js:236), so every awaited delay — including the one
before the second and later polls — is 10000 ms, and 5000 is never awaited:
the awaited delays of any run form a replicate of 10000, and in a concrete
run with ten polls the delay before the second poll is 10000, not 5000. -/
theorem pollDelay_constant_bug :
    (∀ polls : Nat → QueryResp, ∃ m, (proofPollLoop polls).2 = List.replicate m 10000)
    ∧ (proofPollLoop pendingOracle.polls).2 = List.replicate 10 10000
    ∧ (proofPollLoop pendingOracle.polls).2.getD 1 0 = 10000 := by
  refine ⟨fun polls => ?_, by decide, by decide⟩
  simpa [proofPollLoop] using pollLoopAux_delays_replicate polls 10000 10 0

/-- C3: if no poll response carries a ready proof, the loop issues exactly 10
polls (one awaited delay per poll) and then fails with the ProofTimeout
error; if the response to poll k+1 (0-indexed poll k, k < 10) carries a ready
proof, the loop terminates right after that poll, having issued exactly k+1
polls. -/
theorem pollLoop_attempt_schedule (polls : Nat → QueryResp) :
    ((∀ i, i < 10 → notReady (polls i)) →
      proofPollLoop polls = (.error .timeout, List.replicate 10 10000))
    ∧ (∀ k p, k < 10 → (∀ i, i < k → notReady (polls i)) → readyWith (polls k) p →
      proofPollLoop polls = (.ok (p, k + 1), List.replicate (k + 1) 10000)) := by
  constructor
  · intro h
    simpa [proofPollLoop] using
      pollLoopAux_timeout polls 10000 10 0 (fun i h1 h2 => h i (by omega))
  · intro k p hk hnr hr
    have := pollLoopAux_success polls 10000 k 0 10 p (by omega)
      (fun i h1 h2 => hnr i (by omega)) (by simpa using hr)
    simpa [proofPollLoop] using this

/-- C3 witness: with every response pending, the loop times out after exactly
ten polls. -/
theorem pollLoop_attempt_schedule_witness :
    (∀ i, i < 10 → notReady (pendingOracle.polls i))
    ∧ proofPollLoop pendingOracle.polls = (.error .timeout, List.replicate 10 10000) := by
  have hnr : ∀ i, i < 10 → notReady (pendingOracle.polls i) :=
    fun i _ => ⟨⟨"pending", none⟩, rfl, Or.inl rfl⟩
  exact ⟨hnr, (pollLoop_attempt_schedule pendingOracle.polls).1 hnr⟩

/-- C10: if the first k responses are not ready and the response to the next
poll resolves but lacks a `result` object, the loop aborts right after that
poll with the TypeError from reading `result.status` (relayer.js:257) — a
non-success exit distinct from ProofTimeout, not counted as one of the 10
permitted not-ready polls — and the relay attempt aborts with that error. -/
theorem pollLoop_missing_result_aborts (polls : Nat → QueryResp) (k : Nat)
    (hk : k < 10) (hpre : ∀ i, i < k → notReady (polls i))
    (hmiss : (polls k).result = none) :
    proofPollLoop polls = (.error .typeError, List.replicate (k + 1) 10000)
    ∧ PollErr.typeError ≠ PollErr.timeout
    ∧ ∀ (cfg : ChainConfig) (chains : List ChainConfig) (o : Oracle) (d : EventData)
        (dst : ChainConfig),
        findDestinationChain chains d.args.destinationChainId = some dst →
        o.requestOk = true → o.requestStatus = 200 → o.polls = polls →
        (handleValueSetEvent cfg chains o d).1 = .threw .pollTypeError := by
  have hloop : proofPollLoop polls = (.error .typeError, List.replicate (k + 1) 10000) := by
    have := pollLoopAux_typeError polls 10000 k 0 10 (by omega)
      (fun i h1 h2 => hpre i (by omega)) (by simpa using hmiss)
    simpa [proofPollLoop] using this
  refine ⟨hloop, by decide, ?_⟩
  intro cfg chains o d dst hdst hok hst hpolls
  simp [handleValueSetEvent, hdst, hok, hst, hpolls, hloop]

/-- C10 witness: a first response with no `result` object aborts the loop
after one poll with the TypeError exit. -/
theorem pollLoop_missing_result_aborts_witness :
    ((fun _ : Nat => noResultResp) 0).result = none
    ∧ proofPollLoop (fun _ => noResultResp) = (.error .typeError, List.replicate 1 10000) :=
  ⟨rfl,
   (pollLoop_missing_result_aborts (fun _ => noResultResp) 0 (by omega)
     (fun i hi => absurd hi (by omega)) rfl).1⟩

/-- C6: decoding the canonical base64 encoding of any byte sequence yields
exactly those bytes; the calldata the relayer submits for such a wire proof
is `0x` followed by the hex of exactly the decoded bytes; and the hex
rendering decodes back to the same bytes — no truncation or padding. -/
theorem proof_decode_roundtrip_submission (bs : List Nat) (hb : ∀ x ∈ bs, x < 256) :
    base64DecodeChars (base64EncodeBytes bs) = some bs
    ∧ calldataOfProof (String.mk (base64EncodeBytes bs)) = "0x" ++ String.mk (hexOfBytes bs)
    ∧ bytesOfHex (hexOfBytes bs) = some bs := by
  have h1 := base64_decode_encode bs hb
  refine ⟨h1, ?_, bytesOfHex_hexOfBytes bs hb⟩
  simp [calldataOfProof, String.toList, h1]

/-- C6 witness: the round trip and submission equality at the concrete bytes
of `Man` (base64 `TWFu`). -/
theorem proof_decode_roundtrip_submission_witness :
    (∀ x ∈ [77, 97, 110], x < 256)
    ∧ base64DecodeChars (base64EncodeBytes [77, 97, 110]) = some [77, 97, 110]
    ∧ calldataOfProof (String.mk (base64EncodeBytes [77, 97, 110])) =
        "0x" ++ String.mk (hexOfBytes [77, 97, 110])
    ∧ bytesOfHex (hexOfBytes [77, 97, 110]) = some [77, 97, 110] := by
  have h := proof_decode_roundtrip_submission [77, 97, 110] (by decide)
  exact ⟨by decide, h.1, h.2.1, h.2.2⟩

/-- C5: for an event whose destination chain id matches no configured chain,
the handler returns the ConfigurationError drop with an empty network-call
trace — zero calls to the proof service and zero calls to any destination
chain; the delivery's only effects are the two source-chain RPC reads made
before the handler. -/
theorem config_error_no_network_calls (cfg : ChainConfig) (chains : List ChainConfig)
    (o : Oracle) (reg : List String) (d : EventData)
    (hdst : findDestinationChain chains d.args.destinationChainId = none)
    (hnew : eventId d ∉ reg) :
    handleValueSetEvent cfg chains o d = (.configDrop, [])
    ∧ (processDelivery cfg chains o reg d).effects =
        [Effect.source (.getBlock d.blockNumber), Effect.source .getReceipt] := by
  have h1 : handleValueSetEvent cfg chains o d = (.configDrop, []) := by
    simp [handleValueSetEvent, hdst]
  refine ⟨h1, ?_⟩
  simp [processDelivery, hnew, h1]

/-- C5 witness: the event with destination chain id 999 resolves to no chain
and produces no proof-service or destination-chain call. -/
theorem config_error_no_network_calls_witness :
    findDestinationChain sampleChains orphanEvent.args.destinationChainId = none
    ∧ handleValueSetEvent srcChain sampleChains happyOracle orphanEvent = (.configDrop, [])
    ∧ (processDelivery srcChain sampleChains happyOracle [] orphanEvent).effects =
        [Effect.source (.getBlock orphanEvent.blockNumber), Effect.source .getReceipt] := by
  have hdst : findDestinationChain sampleChains orphanEvent.args.destinationChainId = none := by
    decide
  have h := config_error_no_network_calls srcChain sampleChains happyOracle [] orphanEvent hdst
    (by simp)
  exact ⟨hdst, h.1, h.2⟩

/-- C2 counterexample: the claim says that after a ConfigurationError drop the
EventIdentity remains absent from the registry. In the code the handler
returns normally on that path (relayer.js:187), so the callback still runs
`processedEvents.add(eventId)` (relayer.js:161): after processing an event
with an unresolvable destination chain, the identity IS in the registry. -/
theorem registry_insertion_cex :
    (processDelivery srcChain sampleChains happyOracle [] orphanEvent).outcome =
      .handled .configDrop
    ∧ eventId orphanEvent ∈
        (processDelivery srcChain sampleChains happyOracle [] orphanEvent).registry := by
  decide

/-- C2 amended: the EventIdentity is added to the registry exactly when the
handler resolves without throwing — after a fully successful relay AND after
a ConfigurationError drop (which returns normally and is therefore marked
processed, so it is not retried on redelivery); after every attempt that
throws (proof request/poll/timeout, gas estimation, dispatch, confirmation
failures) the identity remains absent and a redelivery is retried (not
skipped). -/
theorem registry_insertion_amended (cfg : ChainConfig) (chains : List ChainConfig) (o : Oracle)
    (reg : List String) (d : EventData) (hnew : eventId d ∉ reg) :
    ((∃ e, (processDelivery cfg chains o reg d).outcome = .handled (.threw e)) →
        (processDelivery cfg chains o reg d).registry = reg
        ∧ eventId d ∉ (processDelivery cfg chains o reg d).registry
        ∧ ∀ o2 : Oracle,
            (processDelivery cfg chains o2 (processDelivery cfg chains o reg d).registry d).outcome
              ≠ DeliveryOutcome.skipped)
    ∧ ((processDelivery cfg chains o reg d).outcome = .handled .ok →
        (processDelivery cfg chains o reg d).registry = eventId d :: reg)
    ∧ ((processDelivery cfg chains o reg d).outcome = .handled .configDrop →
        (processDelivery cfg chains o reg d).registry = eventId d :: reg) := by
  cases he : (handleValueSetEvent cfg chains o d).1 with
  | ok =>
    have hpd := processDelivery_ok cfg chains o reg d hnew he
    rw [hpd]
    refine ⟨?_, fun _ => rfl, ?_⟩
    · rintro ⟨e, hcon⟩
      simp at hcon
    · intro hcon
      simp at hcon
  | configDrop =>
    have hpd := processDelivery_configDrop cfg chains o reg d hnew he
    rw [hpd]
    refine ⟨?_, ?_, fun _ => rfl⟩
    · rintro ⟨e, hcon⟩
      simp at hcon
    · intro hcon
      simp at hcon
  | threw e1 =>
    have hpd := processDelivery_threw cfg chains o reg d e1 hnew he
    rw [hpd]
    refine ⟨fun _ => ⟨rfl, hnew, fun o2 => ?_⟩, ?_, ?_⟩
    · exact processDelivery_not_skipped cfg chains o2 reg d hnew
    · intro hcon
      simp at hcon
    · intro hcon
      simp at hcon

/-- C2 witness: a failed proof request leaves the registry unchanged. -/
theorem registry_insertion_amended_witness :
    eventId sampleEvent ∉ ([] : List String)
    ∧ (processDelivery srcChain sampleChains requestFailOracle [] sampleEvent).outcome =
        .handled (.threw .proofRequestNetwork)
    ∧ (processDelivery srcChain sampleChains requestFailOracle [] sampleEvent).registry = [] := by
  have h := registry_insertion_amended srcChain sampleChains requestFailOracle [] sampleEvent
    (by simp)
  exact ⟨by simp, by decide, (h.1 ⟨.proofRequestNetwork, by decide⟩).1⟩

/-- C7: when gas estimation throws, the handler throws the SubmissionError for
estimation before dispatching anything: the delivery's outcome records that
error, no `sendTx` call appears anywhere in the effect trace, and the
registry does not gain the EventIdentity. -/
theorem estimation_failure_aborts (cfg : ChainConfig) (chains : List ChainConfig) (o : Oracle)
    (reg : List String) (d : EventData) (dst : ChainConfig) (p : String) (n : Nat)
    (hnew : eventId d ∉ reg)
    (hdst : findDestinationChain chains d.args.destinationChainId = some dst)
    (hok : o.requestOk = true) (hst : o.requestStatus = 200)
    (hpoll : (proofPollLoop o.polls).1 = Except.ok (p, n))
    (hest : o.estimateGasResult = none) :
    (processDelivery cfg chains o reg d).outcome = .handled (.threw .estimateGasError)
    ∧ (∀ c pr g, Effect.net (NetCall.sendTx c pr g) ∉ (processDelivery cfg chains o reg d).effects)
    ∧ (processDelivery cfg chains o reg d).registry = reg := by
  rcases hx : proofPollLoop o.polls with ⟨out, ds⟩
  rw [hx] at hpoll
  simp at hpoll
  subst hpoll
  have hhand : handleValueSetEvent cfg chains o d =
      (.threw .estimateGasError,
       NetCall.proofRequest cfg.chainId d.args.destinationChainId d.blockNumber d.positionInBlock ::
         ds.map (fun _ => NetCall.proofPoll o.jobId) ++
         [NetCall.estimateGasCall dst.chainId (calldataOfProof p)]) := by
    simp [handleValueSetEvent, hdst, hok, hst, hx, hest]
  have hpd := processDelivery_threw cfg chains o reg d .estimateGasError hnew (by rw [hhand])
  rw [hpd]
  refine ⟨rfl, ?_, rfl⟩
  intro c pr g hmem
  rw [hhand] at hmem
  simp [List.mem_map] at hmem

/-- C7 witness: with a failing gas estimation the concrete delivery aborts
with the estimation error and an unchanged registry. -/
theorem estimation_failure_aborts_witness :
    findDestinationChain sampleChains sampleEvent.args.destinationChainId = some dstChain
    ∧ (proofPollLoop estimateFailOracle.polls).1 = Except.ok ("TWFu", 1)
    ∧ (processDelivery srcChain sampleChains estimateFailOracle [] sampleEvent).outcome =
        .handled (.threw .estimateGasError)
    ∧ (processDelivery srcChain sampleChains estimateFailOracle [] sampleEvent).registry = [] := by
  have hdst : findDestinationChain sampleChains sampleEvent.args.destinationChainId =
      some dstChain := by decide
  have h := estimation_failure_aborts srcChain sampleChains estimateFailOracle [] sampleEvent
    dstChain "TWFu" 1 (by simp) hdst rfl rfl rfl rfl
  exact ⟨hdst, rfl, h.1, h.2.2⟩

/-- C9: an error thrown while handling one event is caught at the per-event
boundary: the callback resolves with the error recorded in the outcome, the
registry is unchanged, the handling of any other delivery from the resulting
state is identical to its handling from the original state, and the
subscription keeps processing every delivery of any list (one outcome per
delivery, never aborted). -/
theorem per_event_error_isolation (cfg : ChainConfig) (chains : List ChainConfig) (o : Oracle)
    (reg : List String) (d : EventData) (e : RelayError)
    (hnew : eventId d ∉ reg)
    (hthrew : (handleValueSetEvent cfg chains o d).1 = .threw e) :
    (processDelivery cfg chains o reg d).outcome = .handled (.threw e)
    ∧ (processDelivery cfg chains o reg d).registry = reg
    ∧ (∀ (o2 : Oracle) (d2 : EventData),
        processDelivery cfg chains o2 (processDelivery cfg chains o reg d).registry d2 =
          processDelivery cfg chains o2 reg d2)
    ∧ (∀ ds : List (Oracle × EventData),
        (processDeliveries cfg chains reg ds).2.length = ds.length) := by
  have hpd := processDelivery_threw cfg chains o reg d e hnew hthrew
  exact ⟨by rw [hpd], by rw [hpd], fun o2 d2 => by rw [hpd],
    fun ds => processDeliveries_length cfg chains ds reg⟩

/-- C9 witness: a network failure of the proof request is caught and leaves
the registry unchanged. -/
theorem per_event_error_isolation_witness :
    (handleValueSetEvent srcChain sampleChains requestFailOracle sampleEvent).1 =
      .threw .proofRequestNetwork
    ∧ (processDelivery srcChain sampleChains requestFailOracle [] sampleEvent).registry = [] := by
  have h := per_event_error_isolation srcChain sampleChains requestFailOracle [] sampleEvent
    .proofRequestNetwork (by simp) (by decide)
  exact ⟨by decide, h.2.1⟩

/-- C8: sequential deliveries of events with equal EventIdentity: once the
identity is in the registry (as it is after a success), every further
delivery is a skipped no-op with no effects — no block query, no proof
request, no submission; and across any sequential run at most one delivery
completes a confirmed destination submission (outcome `handled .ok`). -/
theorem dedup_sequential (cfg : ChainConfig) (chains : List ChainConfig) (eid : String)
    (reg : List String) (ds : List (Oracle × EventData))
    (hids : ∀ x ∈ ds, eventId x.2 = eid) :
    (eid ∈ reg → processDeliveries cfg chains reg ds =
        (reg, ds.map (fun _ => (DeliveryOutcome.skipped, ([] : List Effect)))))
    ∧ List.countP (fun x => decide (x.1 = DeliveryOutcome.handled .ok))
        (processDeliveries cfg chains reg ds).2 ≤ 1 :=
  ⟨fun hmem => processDeliveries_seen cfg chains eid ds reg hmem hids,
   processDeliveries_ok_count cfg chains eid ds reg hids⟩

/-- C8 witness: two sequential deliveries of the same event produce at most
one confirmed submission. -/
theorem dedup_sequential_witness :
    (∀ x ∈ [(happyOracle, sampleEvent), (happyOracle, sampleEvent)],
      eventId x.2 = eventId sampleEvent)
    ∧ List.countP (fun x => decide (x.1 = DeliveryOutcome.handled .ok))
        (processDeliveries srcChain sampleChains []
          [(happyOracle, sampleEvent), (happyOracle, sampleEvent)]).2 ≤ 1 := by
  have h := dedup_sequential srcChain sampleChains (eventId sampleEvent) []
    [(happyOracle, sampleEvent), (happyOracle, sampleEvent)] (by simp)
  exact ⟨by simp, h.2⟩

/-- C4 counterexample: the claim says at most one of two concurrent deliveries
of the same event reaches the destination submission step. Under the schedule
in which both pass the duplicate check before either completes (possible
because the registry is only written after full success, relayer.js:161),
both invocations reach the submission step. -/
theorem concurrent_dup_cex :
    ¬ (submissionsOf
        (runSched raceSchedule [] (initProc sampleEvent happyCalls)
          (initProc sampleEvent happyCalls)).2.1
        (runSched raceSchedule [] (initProc sampleEvent happyCalls)
          (initProc sampleEvent happyCalls)).2.2 ≤ 1) := by
  decide

/-- C4 amended: two concurrent deliveries of the same EventIdentity that both
pass the duplicate check before either completes BOTH reach the destination
submission step (the race of spec §4.1); at-most-one holds only when one
invocation completes before the other's registry check, as in the sequential
schedule, where the second invocation is skipped with an empty trace and
exactly one submission occurs. -/
theorem concurrent_dup_amended :
    (submissionsOf
        (runSched raceSchedule [] (initProc sampleEvent happyCalls)
          (initProc sampleEvent happyCalls)).2.1
        (runSched raceSchedule [] (initProc sampleEvent happyCalls)
          (initProc sampleEvent happyCalls)).2.2 = 2)
    ∧ (submissionsOf
        (runSched seqSchedule [] (initProc sampleEvent happyCalls)
          (initProc sampleEvent happyCalls)).2.1
        (runSched seqSchedule [] (initProc sampleEvent happyCalls)
          (initProc sampleEvent happyCalls)).2.2 = 1)
    ∧ (runSched seqSchedule [] (initProc sampleEvent happyCalls)
        (initProc sampleEvent happyCalls)).2.2.skipped = true
    ∧ (runSched seqSchedule [] (initProc sampleEvent happyCalls)
        (initProc sampleEvent happyCalls)).2.2.trace = [] := by
  decide

end Relayer
